import Mathlib

/-!
A shallow embedding of `src/proxmark.py`, a host-side driver for the
Proxmark RFID device, together with proofs of the specified properties.

Modelling conventions:
* Python byte strings become `List Nat` (one entry per byte).
* Python (arbitrary-precision) ints become `Nat` or `Int`; the `struct`
  module's `"I"` format (native-order u32) is modelled by explicit
  little-endian base-256 packing with `% 2^32` wraparound.
* Python exceptions become an error sum `ProxErr`: `struct.error` raised
  by `struct.unpack` on a short buffer is `frameTooShort`, `usb.USBError`
  raised by a timed-out bulk transfer is `transport`, and the script's
  own `ProxError` raises are `deviceNotFound` / `protocol` (the latter
  carrying the unexpected opcode that `tune`/`samples` interpolate into
  the message string).
* The USB transport is modelled by an explicit state `PMState`: a queue
  of blobs the device will return for successive `bulkRead` calls and a
  trace of blobs written by `bulkWrite`.
-/

/-- Errors of the embedded program (see the module comment). -/
inductive ProxErr where
  | deviceNotFound : ProxErr
  | protocol : Nat → ProxErr
  | frameTooShort : ProxErr
  | transport : ProxErr
deriving DecidableEq

/-- Little-endian base-256 packing of one u32, as `struct.pack` with format
character I produces for a value already reduced mod 2^32. -/
def packU32 (n : Nat) : List Nat :=
  [n % 256, n / 256 % 256, n / 65536 % 256, n / 16777216 % 256]

/-- Little-endian reassembly of one u32 from four bytes, as `struct.unpack`
with format character I computes. -/
def unpack4 (b0 b1 b2 b3 : Nat) : Nat :=
  b0 + 256 * b1 + 65536 * b2 + 16777216 * b3

/-- The 48-zero-byte default payload (`"\x00"*48` in `USBCommand.buf`). -/
def zeros48 : List Nat := List.replicate 48 0

/-- `class USBCommand`: a command/response frame. `cmd`, `ext1`, `ext2`,
`ext3` are the four u32 header fields; `buf` is the payload bytes. -/
structure USBCommand where
  cmd : Nat := 0
  ext1 : Nat := 0
  ext2 : Nat := 0
  ext3 : Nat := 0
  buf : List Nat := zeros48
deriving DecidableEq

/-- `USBCommand(blob=blob)`: the constructor guard `if blob:` is a Python
truthiness test, false for the empty string, so a 0-byte blob takes
neither branch and silently yields the class defaults (cmd 0 and the
48-zero payload).  For a nonempty blob, `struct.unpack("IIII", blob[:16])`
raises `struct.error` when `blob[:16]` holds fewer than 16 bytes; that
exception is the `frameTooShort` error value.  Otherwise the four header
fields are unpacked and `buf = blob[16:]`. -/
def USBCommand.ofBlob (blob : List Nat) : Except ProxErr USBCommand :=
  if blob.length = 0 then
    .ok {}
  else if blob.length < 16 then
    .error .frameTooShort
  else
    .ok { cmd := unpack4 (blob.getD 0 0) (blob.getD 1 0) (blob.getD 2 0) (blob.getD 3 0)
          ext1 := unpack4 (blob.getD 4 0) (blob.getD 5 0) (blob.getD 6 0) (blob.getD 7 0)
          ext2 := unpack4 (blob.getD 8 0) (blob.getD 9 0) (blob.getD 10 0) (blob.getD 11 0)
          ext3 := unpack4 (blob.getD 12 0) (blob.getD 13 0) (blob.getD 14 0) (blob.getD 15 0)
          buf := blob.drop 16 }

/-- `USBCommand.__str__`: `struct.pack("IIII", cmd, ext1, ext2, ext3)`
followed by `buf` verbatim (no padding or truncation of the payload). -/
def USBCommand.str (c : USBCommand) : List Nat :=
  packU32 c.cmd ++ packU32 c.ext1 ++ packU32 c.ext2 ++ packU32 c.ext3 ++ c.buf

/-- `USBCommand(cmd=k)`: header `k,0,0,0`, payload left at the 48-zero
default. Used by `Proxmark._send` and the per-command constructors. -/
def USBCommand.mkCmd (k : Nat) : USBCommand := { cmd := k }

/-- `class Antenna`: one tuning reading (name, voltage in mV, impedance in
ohms).  The source initialises voltage/impedance to floats but only ever
stores the integers extracted from the response header, so they are `Nat`. -/
structure Antenna where
  name : String := ""
  voltage : Nat := 0
  impedance : Nat := 0
deriving DecidableEq

/-- Transport state: `incoming` is the queue of blobs successive
`bulkRead(0x82, 64, 1000)` calls will return; `sent` is the trace of blobs
written so far by `bulkWrite(0x01, ., 1000)`. -/
structure PMState where
  incoming : List (List Nat)
  sent : List (List Nat)
deriving DecidableEq

/-- `Proxmark._sendcmd`: serialise the frame and bulk-write it. -/
def sendcmd (c : USBCommand) (st : PMState) : PMState :=
  { st with sent := st.sent ++ [c.str] }

/-- `Proxmark._recvcmd`: bulk-read up to 64 bytes and decode them.  An empty
queue stands for a timed-out read (`usb.USBError`, the `transport` error);
otherwise the read consumes the head blob, of which at most 64 bytes are
returned, and `USBCommand(cmdstr)` parses it. -/
def recvcmd (st : PMState) : Except ProxErr USBCommand × PMState :=
  match st.incoming with
  | [] => (.error .transport, st)
  | b :: rest =>
    match USBCommand.ofBlob (b.take 64) with
    | .error e => (.error e, { st with incoming := rest })
    | .ok c => (.ok c, { st with incoming := rest })

/-- `Proxmark.tune`: send opcode 0x400, receive, require response opcode
0x401, and unpack the three antenna readings from the extension fields. -/
def tune (st : PMState) : Except ProxErr (Antenna × Antenna × Antenna) × PMState :=
  let st1 := sendcmd (USBCommand.mkCmd 0x400) st
  match recvcmd st1 with
  | (.error e, st2) => (.error e, st2)
  | (.ok resp, st2) =>
    if resp.cmd ≠ 0x401 then
      (.error (.protocol resp.cmd), st2)
    else
      (.ok ({ name := "125kHz", voltage := resp.ext1 % 65536, impedance := resp.ext3 % 65536 },
            { name := "134kHz", voltage := resp.ext1 / 65536, impedance := resp.ext3 % 65536 },
            { name := "13.56MHz", voltage := resp.ext2, impedance := resp.ext3 / 65536 }), st2)

/-- `ord(sample) - 128`: the unsigned-byte-to-signed-sample map used when
flattening a chunk payload. -/
def byteToSample (b : Nat) : Int := (b : Int) - 128

/-- The chunk-request frame of `Proxmark.samples`: `USBCommand(cmd=0x0204)`
with `c.ext1 = i` set before each send (only `ext1` varies across the
loop, so the mutated object equals this fresh frame at each step). -/
def chunkCmd (i : Nat) : USBCommand := { cmd := 0x0204, ext1 := i }

/-- `xrange(0, n, 12)` for the (already clamped) requested count `n`:
the chunk offsets 0, 12, 24, ..., of which there are ⌈n/12⌉ when n > 0
and none when n ≤ 0. -/
def chunkOffsets (n : Int) : List Nat :=
  (List.range ((n.toNat + 11) / 12)).map (fun k => 12 * k)

/-- The body of the download loop in `Proxmark.samples`: for each offset,
send the chunk request, receive, require opcode 0x205, and append the
sample map of every payload byte. -/
def samplesLoop : List Nat → List Int → PMState → Except ProxErr (List Int) × PMState
  | [], acc, st => (.ok acc, st)
  | i :: rest, acc, st =>
    let st1 := sendcmd (chunkCmd i) st
    match recvcmd st1 with
    | (.error e, st2) => (.error e, st2)
    | (.ok r, st2) =>
      if r.cmd ≠ 0x205 then
        (.error (.protocol r.cmd), st2)
      else
        samplesLoop rest (acc ++ r.buf.map byteToSample) st2

/-- `Proxmark.samples(n)`: clamp `n` to 16000 and run the download loop
over `xrange(0, n, 12)` with an empty accumulator. -/
def samples (n : Int) (st : PMState) : Except ProxErr (List Int) × PMState :=
  let m := if n > 16000 then (16000 : Int) else n
  samplesLoop (chunkOffsets m) [] st

/-- The loop body of `Proxmark.read_msgs`: receive and append frames until
a receive raises; the bare `except:` catches both the transport timeout
(empty queue) and a decode failure, and breaks without re-raising. -/
def readLoop : List (List Nat) → List USBCommand
  | [] => []
  | b :: rest =>
    match USBCommand.ofBlob (b.take 64) with
    | .error _ => []
    | .ok c => c :: readLoop rest

/-- `Proxmark.read_msgs`: drain responses from the transport queue. -/
def read_msgs (st : PMState) : List USBCommand := readLoop st.incoming

/-- `Proxmark.vendorID`. -/
def vendorID : Nat := 0x9ac4

/-- `Proxmark.productID`. -/
def productID : Nat := 0x4b8f

/-- One USB device descriptor as seen during `usb.busses()` enumeration. -/
structure Device where
  idVendor : Nat
  idProduct : Nat
deriving DecidableEq

/-- The inner loop of `Proxmark._find`: first matching device of one bus. -/
def findInBus : List Device → Option Device
  | [] => none
  | d :: rest =>
    if d.idVendor = vendorID ∧ d.idProduct = productID then some d
    else findInBus rest

/-- `Proxmark._find`: first device over all busses whose vendor/product ids
match, `none` when no device matches. -/
def findDevice : List (List Device) → Option Device
  | [] => none
  | bus :: rest =>
    match findInBus bus with
    | some d => some d
    | none => findDevice rest

/-- Transport-handle actions performed by `Proxmark.__init__` after a
successful `_find`, in order: `dev.open()`, the best-effort
`detachKernelDriver` attempt, `setConfiguration`, `claimInterface`. -/
inductive SessionAction where
  | opened : SessionAction
  | detachTried : SessionAction
  | configSet : SessionAction
  | claimed : SessionAction
deriving DecidableEq

/-- `Proxmark.__init__`: enumerate, and when no device matches raise
`ProxError("Cannot find Proxmark")` before touching any handle (the action
trace is then empty); otherwise open, configure and claim the handle. -/
def proxInit (busses : List (List Device)) : Except ProxErr Device × List SessionAction :=
  match findDevice busses with
  | none => (.error .deviceNotFound, [])
  | some d => (.ok d, [.opened, .detachTried, .configSet, .claimed])

/-- A canonical response blob: four packed u32 header fields followed by a
payload, the shape of every well-formed 64-byte device response. -/
def respBlob (op e1 e2 e3 : Nat) (payload : List Nat) : List Nat :=
  packU32 op ++ packU32 e1 ++ packU32 e2 ++ packU32 e3 ++ payload

/-- A response blob is a well-formed sample chunk when it decodes to a
frame with opcode 0x205 and a 48-byte payload (as every 64-byte device
response does). -/
def isChunkResp (b : List Nat) : Bool :=
  match USBCommand.ofBlob (b.take 64) with
  | .ok r => r.cmd == 0x205 && r.buf.length == 48
  | .error _ => false

/-- The decoded payload of a response blob (empty on decode failure). -/
def decodedBuf (b : List Nat) : List Nat :=
  match USBCommand.ofBlob (b.take 64) with
  | .ok r => r.buf
  | .error _ => []

/-! ### Codec lemmas -/

theorem unpack4_packU32 (n : Nat) :
    unpack4 (n % 256) (n / 256 % 256) (n / 65536 % 256) (n / 16777216 % 256) =
      n % 4294967296 := by
  unfold unpack4
  omega

theorem str_as_cons (c : USBCommand) :
    c.str = c.cmd % 256 :: c.cmd / 256 % 256 :: c.cmd / 65536 % 256 :: c.cmd / 16777216 % 256 ::
      c.ext1 % 256 :: c.ext1 / 256 % 256 :: c.ext1 / 65536 % 256 :: c.ext1 / 16777216 % 256 ::
      c.ext2 % 256 :: c.ext2 / 256 % 256 :: c.ext2 / 65536 % 256 :: c.ext2 / 16777216 % 256 ::
      c.ext3 % 256 :: c.ext3 / 256 % 256 :: c.ext3 / 65536 % 256 :: c.ext3 / 16777216 % 256 ::
      c.buf := by
  simp [USBCommand.str, packU32]

theorem ofBlob_header (b0 b1 b2 b3 b4 b5 b6 b7 b8 b9 b10 b11 b12 b13 b14 b15 : Nat)
    (p : List Nat) :
    USBCommand.ofBlob (b0 :: b1 :: b2 :: b3 :: b4 :: b5 :: b6 :: b7 ::
        b8 :: b9 :: b10 :: b11 :: b12 :: b13 :: b14 :: b15 :: p) =
      .ok { cmd := unpack4 b0 b1 b2 b3, ext1 := unpack4 b4 b5 b6 b7,
            ext2 := unpack4 b8 b9 b10 b11, ext3 := unpack4 b12 b13 b14 b15, buf := p } := by
  simp [USBCommand.ofBlob, List.getD]

theorem ofBlob_str (c : USBCommand) :
    USBCommand.ofBlob c.str =
      .ok { cmd := c.cmd % 4294967296, ext1 := c.ext1 % 4294967296,
            ext2 := c.ext2 % 4294967296, ext3 := c.ext3 % 4294967296, buf := c.buf } := by
  rw [str_as_cons, ofBlob_header, unpack4_packU32, unpack4_packU32, unpack4_packU32,
    unpack4_packU32]

/-- Equality of embedded program results is decidable, so concrete runs can
be checked by evaluation. -/
instance instDecEqExceptPM {ε α : Type} [DecidableEq ε] [DecidableEq α] :
    DecidableEq (Except ε α) := fun x y =>
  match x, y with
  | .error a, .error b =>
    if h : a = b then isTrue (by rw [h])
    else isFalse (fun hh => h (by injection hh))
  | .error _, .ok _ => isFalse (fun hh => Except.noConfusion hh)
  | .ok _, .error _ => isFalse (fun hh => Except.noConfusion hh)
  | .ok a, .ok b =>
    if h : a = b then isTrue (by rw [h])
    else isFalse (fun hh => h (by injection hh))

/-! ### C1: frame round trip -/

/-- C1 counterexample: at opcode 1, ext fields 2, 3, 4 and the empty
payload (length 0 ≤ 48), decoding the encoded frame yields the original
empty payload, not the 48-byte zero-padded payload the claim states, and
the encoded frame is 16 bytes, not 64: `USBCommand.__str__` appends `buf`
verbatim with no padding. -/
theorem c1_frame_roundtrip_counterexample :
    USBCommand.ofBlob (USBCommand.str ⟨1, 2, 3, 4, []⟩) = .ok ⟨1, 2, 3, 4, []⟩ ∧
    USBCommand.ofBlob (USBCommand.str ⟨1, 2, 3, 4, []⟩) ≠
      .ok ⟨1, 2, 3, 4, List.replicate 48 0⟩ ∧
    (USBCommand.str ⟨1, 2, 3, 4, []⟩).length = 16 := by
  refine ⟨?_, ?_, ?_⟩ <;> decide

/-- C1 (amended): for every opcode, ext1, ext2, ext3 below 2^32 and every
payload, decoding the encoded frame yields header fields equal to the
originals and the payload verbatim (encode performs no zero-padding, so
the frame is 64 bytes exactly when the payload is exactly 48 bytes, as in
every frame the program itself constructs). -/
theorem c1_frame_roundtrip_amended (cmd e1 e2 e3 : Nat) (payload : List Nat)
    (h1 : cmd < 4294967296) (h2 : e1 < 4294967296)
    (h3 : e2 < 4294967296) (h4 : e3 < 4294967296) :
    USBCommand.ofBlob (USBCommand.str ⟨cmd, e1, e2, e3, payload⟩) =
      .ok ⟨cmd, e1, e2, e3, payload⟩ ∧
    (USBCommand.str ⟨cmd, e1, e2, e3, payload⟩).length = 16 + payload.length := by
  constructor
  · rw [ofBlob_str]
    simp [Nat.mod_eq_of_lt, h1, h2, h3, h4]
  · simp [USBCommand.str, packU32]
    omega

/-- Witness for C1 (amended) at a concrete 1-byte payload. -/
theorem c1_frame_roundtrip_amended_witness :
    USBCommand.ofBlob (USBCommand.str ⟨5, 6, 7, 8, [9]⟩) = .ok ⟨5, 6, 7, 8, [9]⟩ ∧
    (USBCommand.str ⟨5, 6, 7, 8, [9]⟩).length = 16 + 1 :=
  c1_frame_roundtrip_amended 5 6 7 8 [9] (by decide) (by decide) (by decide) (by decide)

/-! ### C7: decode of short input -/

/-- C7 counterexample: the empty input is shorter than 16 bytes, yet
decoding it does not fail — the constructor's `if blob:` truthiness guard
is false for an empty string, so every field keeps its class default and
a frame with opcode 0 and a conjured 48-zero-byte payload is silently
returned. -/
theorem c7_decode_short_counterexample :
    USBCommand.ofBlob [] = .ok { cmd := 0, ext1 := 0, ext2 := 0, ext3 := 0, buf := zeros48 } ∧
    USBCommand.ofBlob [] ≠ .error .frameTooShort := by
  refine ⟨rfl, ?_⟩
  decide

/-- C7 (amended): for every nonempty input shorter than 16 bytes,
decoding fails with the frame-too-short error (the `struct.error` that
`struct.unpack("IIII", ...)` raises on a short buffer) and produces no
frame, so no byte beyond the supplied input is ever read; the empty input
alone is silently accepted, yielding the default frame with opcode 0 and
a 48-zero-byte payload. -/
theorem c7_decode_short_amended (blob : List Nat) (h1 : blob ≠ [])
    (h2 : blob.length < 16) :
    USBCommand.ofBlob blob = .error .frameTooShort ∧
    USBCommand.ofBlob [] =
      .ok { cmd := 0, ext1 := 0, ext2 := 0, ext3 := 0, buf := zeros48 } := by
  constructor
  · unfold USBCommand.ofBlob
    rw [if_neg (fun h0 => h1 (List.length_eq_zero.mp h0)), if_pos h2]
  · rfl

/-- Witness for C7 (amended) at the 8-byte input of the spec's example. -/
theorem c7_decode_short_amended_witness :
    USBCommand.ofBlob [0, 1, 2, 3, 4, 5, 6, 7] = .error .frameTooShort ∧
    USBCommand.ofBlob [] =
      .ok { cmd := 0, ext1 := 0, ext2 := 0, ext3 := 0, buf := zeros48 } :=
  c7_decode_short_amended [0, 1, 2, 3, 4, 5, 6, 7] (by decide) (by decide)

/-! ### C3: tuning decode -/

theorem ofBlob_respBlob (op e1 e2 e3 : Nat) (p : List Nat) (h : p.length ≤ 48) :
    USBCommand.ofBlob ((respBlob op e1 e2 e3 p).take 64) =
      .ok ⟨op % 4294967296, e1 % 4294967296, e2 % 4294967296, e3 % 4294967296, p⟩ := by
  have hb : respBlob op e1 e2 e3 p = USBCommand.str ⟨op, e1, e2, e3, p⟩ := rfl
  have hlen : (respBlob op e1 e2 e3 p).length ≤ 64 := by
    simp [respBlob, packU32]
    omega
  rw [List.take_of_length_le hlen, hb, ofBlob_str]

/-- C3: whenever the queued response frame carries opcode 0x401 with
extension fields `e1`, `e2`, `e3` (u32 values), `tune` succeeds and
returns the ordered triple (125kHz, 134kHz, 13.56MHz) with
125kHz voltage `e1 % 2^16`, 134kHz voltage `e1 >> 16`, 13.56MHz voltage
`e2`, both LF impedances `e3 % 2^16`, and 13.56MHz impedance `e3 >> 16`. -/
theorem c3_tune_decode (e1 e2 e3 : Nat) (rest sent : List (List Nat))
    (h1 : e1 < 4294967296) (h2 : e2 < 4294967296) (h3 : e3 < 4294967296) :
    tune ⟨respBlob 0x401 e1 e2 e3 zeros48 :: rest, sent⟩ =
      (.ok ({ name := "125kHz", voltage := e1 % 65536, impedance := e3 % 65536 },
            { name := "134kHz", voltage := e1 / 65536, impedance := e3 % 65536 },
            { name := "13.56MHz", voltage := e2, impedance := e3 / 65536 }),
       ⟨rest, sent ++ [(USBCommand.mkCmd 0x400).str]⟩) := by
  have hdec := ofBlob_respBlob 0x401 e1 e2 e3 zeros48 (by simp [zeros48])
  rw [Nat.mod_eq_of_lt h1, Nat.mod_eq_of_lt h2, Nat.mod_eq_of_lt h3] at hdec
  norm_num at hdec
  simp [tune, sendcmd, recvcmd, hdec]

/-- Witness for C3 at the spec's concrete example: `ext1 = 0x00140032`,
`ext2 = 300`, `ext3 = 0x00100005` yield (125kHz: 50mV/5Ω),
(134kHz: 20mV/5Ω), (13.56MHz: 300mV/16Ω). -/
theorem c3_tune_decode_witness :
    tune ⟨[respBlob 0x401 0x00140032 300 0x00100005 zeros48], []⟩ =
      (.ok ({ name := "125kHz", voltage := 50, impedance := 5 },
            { name := "134kHz", voltage := 20, impedance := 5 },
            { name := "13.56MHz", voltage := 300, impedance := 16 }),
       ⟨[], [(USBCommand.mkCmd 0x400).str]⟩) := by
  have h := c3_tune_decode 0x00140032 300 0x00100005 [] []
    (by norm_num) (by norm_num) (by norm_num)
  norm_num at h
  exact h

/-! ### C6: opcode-mismatch error -/

/-- C6: in each synchronous exchange — `tune` expecting 0x401 and a
`samples` chunk expecting 0x205 — a response frame whose opcode `x`
differs from the expected opcode makes the operation fail with the
protocol error carrying the actual opcode `x`. -/
theorem c6_opcode_mismatch (x e1 e2 e3 : Nat) (rest sent : List (List Nat))
    (hx : x < 4294967296) :
    (x ≠ 0x401 →
      (tune ⟨respBlob x e1 e2 e3 zeros48 :: rest, sent⟩).1 = .error (.protocol x)) ∧
    (x ≠ 0x205 →
      (samples 12 ⟨respBlob x e1 e2 e3 zeros48 :: rest, sent⟩).1 = .error (.protocol x)) := by
  have hdec := ofBlob_respBlob x e1 e2 e3 zeros48 (by simp [zeros48])
  rw [Nat.mod_eq_of_lt hx] at hdec
  constructor
  · intro hne
    simp [tune, sendcmd, recvcmd, hdec, hne]
  · intro hne
    have hoffs : chunkOffsets 12 = [0] := by decide
    simp [samples, hoffs, samplesLoop, sendcmd, recvcmd, hdec, hne]

/-- Witness for C6: expecting 0x401 (tune) or 0x205 (samples) but
receiving opcode 0x999 fails with the protocol error carrying 0x999. -/
theorem c6_opcode_mismatch_witness :
    (tune ⟨[respBlob 0x999 0 0 0 zeros48], []⟩).1 = .error (.protocol 0x999) ∧
    (samples 12 ⟨[respBlob 0x999 0 0 0 zeros48], []⟩).1 = .error (.protocol 0x999) := by
  have h := c6_opcode_mismatch 0x999 0 0 0 [] [] (by norm_num)
  exact ⟨h.1 (by norm_num), h.2 (by norm_num)⟩

/-! ### The download loop of `Proxmark.samples` -/

theorem ofBlob_ok_buf (blob : List Nat) (r : USBCommand)
    (h : USBCommand.ofBlob blob = .ok r) (hne : blob ≠ []) : r.buf = blob.drop 16 := by
  unfold USBCommand.ofBlob at h
  rw [if_neg (fun h0 => hne (List.length_eq_zero.mp h0))] at h
  split at h
  · exact absurd h (by simp)
  · injection h with h
    rw [← h]

theorem samplesLoop_run (offs : List Nat) :
    ∀ (resps rest : List (List Nat)) (acc : List Int) (sent : List (List Nat)),
      resps.length = offs.length →
      (∀ b ∈ resps, isChunkResp b = true) →
      samplesLoop offs acc ⟨resps ++ rest, sent⟩ =
        (.ok (acc ++ (resps.map (fun b => (decodedBuf b).map byteToSample)).flatten),
         ⟨rest, sent ++ offs.map (fun i => (chunkCmd i).str)⟩) := by
  induction offs with
  | nil =>
    intro resps rest acc sent hlen _
    obtain rfl : resps = [] := List.length_eq_zero.mp (by simpa using hlen)
    simp [samplesLoop]
  | cons i offs ih =>
    intro resps rest acc sent hlen hgood
    cases resps with
    | nil => simp at hlen
    | cons b resps' =>
      have hb : isChunkResp b = true := hgood b (List.mem_cons_self b resps')
      cases hob : USBCommand.ofBlob (b.take 64) with
      | error e => simp [isChunkResp, hob] at hb
      | ok r =>
        have hcmd : r.cmd = 0x205 := by
          have hb' := hb
          simp [isChunkResp, hob] at hb'
          exact hb'.1
        have hbuf : decodedBuf b = r.buf := by simp [decodedBuf, hob]
        have hrec := ih resps' rest (acc ++ r.buf.map byteToSample)
          (sent ++ [(chunkCmd i).str]) (by simpa using hlen)
          (fun b' hb' => hgood b' (List.mem_cons_of_mem _ hb'))
        simp only [samplesLoop, sendcmd, recvcmd, List.cons_append, hob, hcmd]
        norm_num
        rw [hrec]
        simp [hbuf, List.append_assoc]

theorem goodResps_flatten_length (resps : List (List Nat))
    (h : ∀ b ∈ resps, isChunkResp b = true) :
    ((resps.map (fun b => (decodedBuf b).map byteToSample)).flatten).length =
      resps.length * 48 := by
  induction resps with
  | nil => simp
  | cons b rs ih =>
    have hb := h b (List.mem_cons_self b rs)
    have hlen : (decodedBuf b).length = 48 := by
      cases hob : USBCommand.ofBlob (b.take 64) with
      | error e => simp [isChunkResp, hob] at hb
      | ok r =>
        have hb' := hb
        simp [isChunkResp, hob] at hb'
        simp [decodedBuf, hob, hb'.2]
    have htail := ih (fun b' hb' => h b' (List.mem_cons_of_mem _ hb'))
    simp [htail, hlen]
    ring

/-! ### C2: downloaded sample count -/

/-- C2: for every requested count `n` with 0 < n ≤ 16000, when the device
queues one well-formed 64-byte chunk response (opcode 0x205) per request,
`samples n` succeeds and the returned sample sequence has length exactly
⌈n/12⌉ × 48: the full 48-byte payload is appended for every one of the
⌈n/12⌉ chunk requests, regardless of the 12-sample step. -/
theorem c2_samples_length (n : Int) (resps rest sent : List (List Nat))
    (h0 : 0 < n) (h16 : n ≤ 16000)
    (hlen : resps.length = (n.toNat + 11) / 12)
    (hgood : ∀ b ∈ resps, isChunkResp b = true) :
    ∃ out, (samples n ⟨resps ++ rest, sent⟩).1 = .ok out ∧
      out.length = ((n.toNat + 11) / 12) * 48 := by
  have hclamp : (if n > 16000 then (16000 : Int) else n) = n := if_neg (by omega)
  have hoffs : (chunkOffsets n).length = (n.toNat + 11) / 12 := by
    simp [chunkOffsets]
  have hrun := samplesLoop_run (chunkOffsets n) resps rest [] sent
    (hlen.trans hoffs.symm) hgood
  have hsam : samples n ⟨resps ++ rest, sent⟩ =
      (.ok ((resps.map (fun b => (decodedBuf b).map byteToSample)).flatten),
       ⟨rest, sent ++ (chunkOffsets n).map (fun i => (chunkCmd i).str)⟩) := by
    unfold samples
    rw [hclamp]
    simpa using hrun
  refine ⟨_, by rw [hsam], ?_⟩
  rw [goodResps_flatten_length resps hgood, hlen]

/-- Witness for C2 at n = 12 with one queued chunk response: one request,
48 samples. -/
theorem c2_samples_length_witness :
    ∃ out, (samples 12 ⟨[respBlob 0x205 0 0 0 zeros48] ++ [], []⟩).1 = .ok out ∧
      out.length = (((12 : Int).toNat + 11) / 12) * 48 :=
  c2_samples_length 12 [respBlob 0x205 0 0 0 zeros48] [] []
    (by norm_num) (by norm_num) (by decide) (by decide)

/-! ### C4: clamping and chunk addressing -/

/-- C4: `samples 20000` clamps the request to 16000 and, when the device
queues 1334 well-formed chunk responses, succeeds after writing exactly
the 1334 chunk-request frames `chunkCmd (12*k)` for k = 0, ..., 1333 —
opcode 0x204 with ext1 = 0, 12, 24, ..., 15996 — to the transport. -/
theorem c4_samples_clamp (resps rest sent : List (List Nat))
    (hlen : resps.length = 1334)
    (hgood : ∀ b ∈ resps, isChunkResp b = true) :
    (samples 20000 ⟨resps ++ rest, sent⟩).2.sent =
      sent ++ (List.range 1334).map (fun k => (chunkCmd (12 * k)).str) ∧
    ∃ out, (samples 20000 ⟨resps ++ rest, sent⟩).1 = .ok out := by
  have hclamp : (if (20000 : Int) > 16000 then (16000 : Int) else 20000) = 16000 := by
    norm_num
  have hcount : ((16000 : Int).toNat + 11) / 12 = 1334 := by decide
  have hrun := samplesLoop_run (chunkOffsets 16000) resps rest [] sent
    (by simp [chunkOffsets, hcount, hlen]) hgood
  have hsam : samples 20000 ⟨resps ++ rest, sent⟩ =
      (.ok ((resps.map (fun b => (decodedBuf b).map byteToSample)).flatten),
       ⟨rest, sent ++ (chunkOffsets 16000).map (fun i => (chunkCmd i).str)⟩) := by
    unfold samples
    rw [hclamp]
    simpa using hrun
  rw [hsam]
  refine ⟨?_, _, rfl⟩
  simp [chunkOffsets, hcount, List.map_map, Function.comp]

/-- Witness for C4 with 1334 queued chunk responses. -/
theorem c4_samples_clamp_witness :
    (samples 20000 ⟨List.replicate 1334 (respBlob 0x205 0 0 0 zeros48) ++ [], []⟩).2.sent =
      [] ++ (List.range 1334).map (fun k => (chunkCmd (12 * k)).str) ∧
    ∃ out,
      (samples 20000 ⟨List.replicate 1334 (respBlob 0x205 0 0 0 zeros48) ++ [], []⟩).1 =
        .ok out :=
  c4_samples_clamp (List.replicate 1334 (respBlob 0x205 0 0 0 zeros48)) [] []
    (List.length_replicate 1334 (respBlob 0x205 0 0 0 zeros48))
    (fun b hb => by rw [List.eq_of_mem_replicate hb]; decide)

/-! ### C10: non-positive requested count -/

/-- C10: for every requested count n ≤ 0, `samples n` issues no chunk
request, performs no transport read or write (the state is returned
unchanged), and returns the empty sample buffer. -/
theorem c10_samples_nonpositive (n : Int) (st : PMState) (h : n ≤ 0) :
    samples n st = (.ok [], st) := by
  have h1 : (if n > 16000 then (16000 : Int) else n) = n := if_neg (by omega)
  have h2 : chunkOffsets n = [] := by
    unfold chunkOffsets
    rw [Int.toNat_of_nonpos h]
    rfl
  show samplesLoop (chunkOffsets (if n > 16000 then (16000 : Int) else n)) [] st =
    (.ok [], st)
  rw [h1, h2]
  rfl

/-- Witness for C10 at n = -5 on a transport with a queued response and a
nonempty send trace: both are left untouched. -/
theorem c10_samples_nonpositive_witness :
    samples (-5) ⟨[[1, 2, 3]], [[4]]⟩ = (.ok [], ⟨[[1, 2, 3]], [[4]]⟩) :=
  c10_samples_nonpositive (-5) ⟨[[1, 2, 3]], [[4]]⟩ (by norm_num)

/-! ### C5: sample byte mapping -/

theorem samplesLoop_mem (offs : List Nat) :
    ∀ (acc : List Int) (st : PMState) (out : List Int) (st' : PMState),
      samplesLoop offs acc st = (.ok out, st') →
      ∀ s ∈ out, s ∈ acc ∨ ∃ b, (∃ blob ∈ st.incoming, b ∈ blob) ∧ s = byteToSample b := by
  induction offs with
  | nil =>
    intro acc st out st' h s hs
    simp [samplesLoop] at h
    exact Or.inl (h.1 ▸ hs)
  | cons i offs ih =>
    intro acc st out st' h s hs
    cases hin : st.incoming with
    | nil => simp [samplesLoop, sendcmd, recvcmd, hin] at h
    | cons b rest =>
      cases hob : USBCommand.ofBlob (b.take 64) with
      | error e => simp [samplesLoop, sendcmd, recvcmd, hin, hob] at h
      | ok r =>
        by_cases hcmd : r.cmd = 0x205
        · have hstep : samplesLoop (i :: offs) acc st =
              samplesLoop offs (acc ++ r.buf.map byteToSample)
                ⟨rest, st.sent ++ [(chunkCmd i).str]⟩ := by
            simp [samplesLoop, sendcmd, recvcmd, hin, hob, hcmd]
          rw [hstep] at h
          rcases ih _ _ _ _ h s hs with hacc | ⟨b', ⟨blob, hblob, hbb⟩, hsb⟩
          · rcases List.mem_append.mp hacc with h1 | h2
            · exact Or.inl h1
            · rcases List.mem_map.mp h2 with ⟨b', hb', rfl⟩
              refine Or.inr ⟨b', ⟨b, by simp [hin], ?_⟩, rfl⟩
              have hne : b.take 64 ≠ [] := by
                intro hemp
                rw [hemp] at hob
                have hdef : USBCommand.ofBlob [] = .ok {} := rfl
                rw [hdef] at hob
                injection hob with hr
                rw [← hr] at hcmd
                exact absurd hcmd (by decide)
              have hrbuf : r.buf = (b.take 64).drop 16 := ofBlob_ok_buf _ _ hob hne
              rw [hrbuf] at hb'
              exact List.mem_of_mem_take (List.mem_of_mem_drop hb')
          · exact Or.inr ⟨b', ⟨blob, by simp [hin, hblob], hbb⟩, hsb⟩
        · simp [samplesLoop, sendcmd, recvcmd, hin, hob, hcmd] at h

/-- C5: the sample map sends unsigned byte b to the signed sample b − 128
(0 ↦ −128, 128 ↦ 0, 255 ↦ 127, and −128 ≤ b − 128 ≤ 127 for every byte
b ≤ 255); consequently, whenever the transport queue holds only byte
values ≤ 255, every sample returned by a successful `samples` run lies in
−128..127. -/
theorem c5_sample_byte_mapping (n : Int) (st : PMState) (out : List Int)
    (h1 : (samples n st).1 = .ok out)
    (h2 : ∀ blob ∈ st.incoming, ∀ b ∈ blob, b ≤ 255) :
    (byteToSample 0 = -128 ∧ byteToSample 128 = 0 ∧ byteToSample 255 = 127) ∧
    (∀ b : Nat, b ≤ 255 → byteToSample b = (b : Int) - 128 ∧
      -128 ≤ byteToSample b ∧ byteToSample b ≤ 127) ∧
    (∀ s ∈ out, -128 ≤ s ∧ s ≤ 127) := by
  refine ⟨by refine ⟨?_, ?_, ?_⟩ <;> decide, ?_, ?_⟩
  · intro b hb
    unfold byteToSample
    refine ⟨rfl, ?_, ?_⟩ <;> omega
  · intro s hs
    have hrun : samplesLoop (chunkOffsets (if n > 16000 then (16000 : Int) else n)) [] st =
        (.ok out, (samples n st).2) := by
      have hdef : samplesLoop (chunkOffsets (if n > 16000 then (16000 : Int) else n)) [] st =
          samples n st := rfl
      rw [hdef]
      exact Prod.ext h1 rfl
    rcases samplesLoop_mem _ _ _ _ _ hrun s hs with hnil | ⟨b, ⟨blob, hblob, hbb⟩, rfl⟩
    · exact absurd hnil (List.not_mem_nil s)
    · have hb := h2 blob hblob b hbb
      unfold byteToSample
      omega

/-- Witness for C5: one chunk of 48 zero bytes yields 48 samples of −128,
all in range. -/
theorem c5_sample_byte_mapping_witness :
    (byteToSample 0 = -128 ∧ byteToSample 128 = 0 ∧ byteToSample 255 = 127) ∧
    (∀ b : Nat, b ≤ 255 → byteToSample b = (b : Int) - 128 ∧
      -128 ≤ byteToSample b ∧ byteToSample b ≤ 127) ∧
    (∀ s ∈ List.replicate 48 (-128 : Int), -128 ≤ s ∧ s ≤ 127) :=
  c5_sample_byte_mapping 12 ⟨[respBlob 0x205 0 0 0 zeros48], []⟩
    (List.replicate 48 (-128 : Int)) (by decide) (by decide)

/-! ### C8: session-open failure -/

theorem findInBus_eq_none (bus : List Device)
    (h : ∀ d ∈ bus, ¬(d.idVendor = vendorID ∧ d.idProduct = productID)) :
    findInBus bus = none := by
  induction bus with
  | nil => rfl
  | cons d rest ih =>
    have hd := h d (List.mem_cons_self d rest)
    simp only [findInBus]
    rw [if_neg hd]
    exact ih (fun d' h' => h d' (List.mem_cons_of_mem _ h'))

theorem findDevice_eq_none (busses : List (List Device))
    (h : ∀ bus ∈ busses, ∀ d ∈ bus, ¬(d.idVendor = vendorID ∧ d.idProduct = productID)) :
    findDevice busses = none := by
  induction busses with
  | nil => rfl
  | cons bus rest ih =>
    have h1 : findInBus bus = none :=
      findInBus_eq_none bus (h bus (List.mem_cons_self bus rest))
    simp only [findDevice, h1]
    exact ih (fun bus' hb => h bus' (List.mem_cons_of_mem _ hb))

/-- C8: when no enumerated device carries vendor id 0x9ac4 and product id
0x4b8f, session construction fails with the device-not-found error and the
transport action trace is empty: no handle is opened, configured or
claimed. -/
theorem c8_open_failure (busses : List (List Device))
    (h : ∀ bus ∈ busses, ∀ d ∈ bus, ¬(d.idVendor = vendorID ∧ d.idProduct = productID)) :
    proxInit busses = (.error .deviceNotFound, []) := by
  simp only [proxInit, findDevice_eq_none busses h]

/-- Witness for C8 on a bus list holding only a non-matching device and an
empty bus. -/
theorem c8_open_failure_witness :
    proxInit [[⟨1, 2⟩], []] = (.error .deviceNotFound, []) :=
  c8_open_failure [[⟨1, 2⟩], []] (by decide)

/-! ### C9: message drain termination -/

theorem readLoop_run (pre : List (List Nat))
    (hpre : ∀ b ∈ pre, (USBCommand.ofBlob (b.take 64)).isOk = true) :
    ∀ tail : List (List Nat),
      (tail = [] ∨
        ∃ bad rest, tail = bad :: rest ∧ (USBCommand.ofBlob (bad.take 64)).isOk = false) →
      readLoop (pre ++ tail) =
        pre.filterMap (fun b => (USBCommand.ofBlob (b.take 64)).toOption) := by
  induction pre with
  | nil =>
    intro tail htail
    rcases htail with rfl | ⟨bad, rest, rfl, hbad⟩
    · rfl
    · cases hob : USBCommand.ofBlob (bad.take 64) with
      | error e => simp [readLoop, hob]
      | ok c =>
        rw [hob] at hbad
        simp [Except.isOk, Except.toBool] at hbad
  | cons b pre' ih =>
    intro tail htail
    have hb := hpre b (List.mem_cons_self b pre')
    cases hob : USBCommand.ofBlob (b.take 64) with
    | error e =>
      rw [hob] at hb
      simp [Except.isOk, Except.toBool] at hb
    | ok c =>
      have h1 : readLoop ((b :: pre') ++ tail) = c :: readLoop (pre' ++ tail) := by
        simp only [List.cons_append, readLoop, hob, List.append_eq]
      have h2 : List.filterMap (fun b => (USBCommand.ofBlob (b.take 64)).toOption)
            (b :: pre') =
          c :: List.filterMap (fun b => (USBCommand.ofBlob (b.take 64)).toOption) pre' := by
        simp [List.filterMap_cons, hob, Except.toOption]
      rw [h1, h2, ih (fun b' h' => hpre b' (List.mem_cons_of_mem _ h')) tail htail]

/-- C9: `read_msgs` receives and appends response frames in arrival order;
the first failing receive — a decode failure on a malformed blob, or the
timeout once the queue is exhausted — stops the drain, and the frames
collected so far are returned as a plain list, the failure not re-raised. -/
theorem c9_read_msgs (pre : List (List Nat)) (bad : List Nat)
    (rest sent sent' : List (List Nat))
    (hpre : ∀ b ∈ pre, (USBCommand.ofBlob (b.take 64)).isOk = true)
    (hbad : (USBCommand.ofBlob (bad.take 64)).isOk = false) :
    read_msgs ⟨pre ++ bad :: rest, sent⟩ =
      pre.filterMap (fun b => (USBCommand.ofBlob (b.take 64)).toOption) ∧
    read_msgs ⟨pre, sent'⟩ =
      pre.filterMap (fun b => (USBCommand.ofBlob (b.take 64)).toOption) := by
  constructor
  · exact readLoop_run pre hpre (bad :: rest) (Or.inr ⟨bad, rest, rfl, hbad⟩)
  · have : pre = pre ++ [] := by simp
    rw [read_msgs]
    rw [show (PMState.mk pre sent').incoming = pre ++ [] from by simp]
    exact readLoop_run pre hpre [] (Or.inl rfl)

/-- Witness for C9: one well-formed frame followed by an 8-byte runt blob
drains to exactly the one decoded frame; the same queue without the runt
drains identically by queue exhaustion. -/
theorem c9_read_msgs_witness :
    read_msgs ⟨[respBlob 7 0 0 0 zeros48] ++ [1, 2, 3] :: [[9]], []⟩ =
      ([respBlob 7 0 0 0 zeros48]).filterMap
        (fun b => (USBCommand.ofBlob (b.take 64)).toOption) ∧
    read_msgs ⟨[respBlob 7 0 0 0 zeros48], [[4]]⟩ =
      ([respBlob 7 0 0 0 zeros48]).filterMap
        (fun b => (USBCommand.ofBlob (b.take 64)).toOption) :=
  c9_read_msgs [respBlob 7 0 0 0 zeros48] [1, 2, 3] [[9]] [] [[4]]
    (by decide) (by decide)
